import Mathlib

/-!
Verification of the LostSword art-placement editor core
(`src/app/page.tsx`): the formation assignment model
(`assignFormation`, `assignPetFormation`), the canvas layout geometry
(`drawCanvas`, `canvasLayout`, overlay buttons), the note-text word
wrapping, the placeholder drawing policy, and the image cache
(`loadImage`).  All definitions are shallow embeddings of the
TypeScript source; numeric layout values are modelled as rationals,
JavaScript arrays as Lean lists.
-/

namespace LostSword

/-- `LibraryItem` from `page.tsx`: `{ id, name, src }`. -/
structure LibraryItem where
  id : String
  name : String
  src : String
deriving DecidableEq, Repr

/-- A formation is an array of `LibraryItem | null` slots. -/
abbrev Formation := List (Option LibraryItem)

/-- Lane of a formation index: `idx <= 1 ? 0 : idx <= 3 ? 1 : 2`
(0 = back, 1 = mid, 2 = front), as in `assignFormation`. -/
def laneOf (idx : Nat) : Nat :=
  if idx ≤ 1 then 0 else if idx ≤ 3 then 1 else 2

/-- `prev.filter(Boolean).length`: number of occupied positions. -/
def filledCount (l : Formation) : Nat :=
  l.countP (fun s => s.isSome)

/-- Helper for the `prev.forEach((slot, idx) => ...)` lane count:
counts occupied slots of `l` whose position (starting at `i`)
belongs to `lane`. -/
def laneCountFrom (lane : Nat) : Nat → Formation → Nat
  | _, [] => 0
  | i, s :: rest =>
      (if laneOf i = lane ∧ s.isSome then 1 else 0) + laneCountFrom lane (i + 1) rest

/-- `laneCounts[lane]` computed by `assignFormation`'s `forEach`. -/
def laneCount (l : Formation) (lane : Nat) : Nat :=
  laneCountFrom lane 0 l

/-- The predicate of `prev.findIndex((s) => s?.id === item.id)`. -/
def slotHasId (tid : String) (s : Option LibraryItem) : Bool :=
  match s with
  | some x => x.id == tid
  | none => false

/-- `prev.findIndex((s) => s?.id === item.id)`, as an `Option Nat`
(`none` for `-1`). -/
def findSame (tid : String) : Formation → Option Nat
  | [] => none
  | s :: rest =>
      if slotHasId tid s then some 0 else (findSame tid rest).map (· + 1)

/-- `assignFormation(index, item)` from `page.tsx` lines 324-358,
as a function on the previous formation state.

* `item = null` clears the position.
* Otherwise the position of an already-placed copy of the same id is
  located (`existingIdx`); assigning onto that same position toggles
  it off; a different existing position is vacated and its lane count
  decremented; then the capacity checks
  `!next[index] && filled >= 5` and
  `!next[index] && laneCounts[targetLane] >= 2` may reject the call
  (returning `prev` unchanged), else the item is placed. -/
def assignFormation (prev : Formation) (index : Nat) (item : Option LibraryItem) :
    Formation :=
  match item with
  | some it =>
      let filled := filledCount prev
      let targetLane := laneOf index
      match findSame it.id prev with
      | some existingIdx =>
          if existingIdx = index then
            prev.set existingIdx none
          else
            let next := prev.set existingIdx none
            let laneAtTarget :=
              laneCount prev targetLane -
                (if laneOf existingIdx = targetLane then 1 else 0)
            if next.getD index none = none ∧ filled ≥ 5 then prev
            else if next.getD index none = none ∧ laneAtTarget ≥ 2 then prev
            else next.set index (some it)
      | none =>
          if prev.getD index none = none ∧ filled ≥ 5 then prev
          else if prev.getD index none = none ∧ laneCount prev targetLane ≥ 2 then
            prev
          else prev.set index (some it)
  | none => prev.set index none

/-- The predicate of `prev.findIndex((s) => s?.id === item?.id)` used by
`assignPetFormation`.  Note the JavaScript semantics: when `item` is
`null`, `item?.id` is `undefined`, which compares equal (`===`) to
`s?.id` exactly when `s` is also `null`. -/
def petSlotMatches (item : Option LibraryItem) (s : Option LibraryItem) : Bool :=
  match s, item with
  | some x, some it => x.id == it.id
  | none, none => true
  | _, _ => false

/-- `prev.findIndex((s) => s?.id === item?.id)` for the pet formation. -/
def findSamePet (item : Option LibraryItem) : Formation → Option Nat
  | [] => none
  | s :: rest =>
      if petSlotMatches item s then some 0
      else (findSamePet item rest).map (· + 1)

/-- `assignPetFormation(index, item)` from `page.tsx` lines 1786-1796:
vacate any *different* position holding the same pet, then
unconditionally write `item` at `index`. -/
def assignPetFormation (prev : Formation) (index : Nat)
    (item : Option LibraryItem) : Formation :=
  let next :=
    match findSamePet item prev with
    | some existingIdx =>
        if existingIdx ≠ index then prev.set existingIdx none else prev
    | none => prev
  next.set index item

/-- The initial all-empty 6-position character formation. -/
def initFormation : Formation := [none, none, none, none, none, none]

/-- Fold a sequence of `assignFormation` calls over a starting state. -/
def applyCalls (calls : List (Nat × Option LibraryItem)) (f : Formation) :
    Formation :=
  calls.foldl (fun st c => assignFormation st c.1 c.2) f

/-- The character-formation occupancy invariant: at most 5 occupied
positions in total and at most 2 occupied positions per lane. -/
def FormationOk (l : Formation) : Prop :=
  filledCount l ≤ 5 ∧ ∀ lane, laneCount l lane ≤ 2

/-! ### Helper lemmas about list update and the slot finders -/

theorem getD_set_ne {l : Formation} {i j : Nat} {v : Option LibraryItem}
    (h : i ≠ j) : (l.set i v).getD j none = l.getD j none := by
  simp [List.getD_eq_getElem?_getD, List.getElem?_set_ne h]

theorem getD_set_self {l : Formation} {i : Nat} {v : Option LibraryItem}
    (h : i < l.length) : (l.set i v).getD i none = v := by
  simp [List.getD_eq_getElem?_getD, List.getElem?_set_self h]

theorem set_none_eq_self {l : Formation} {i : Nat}
    (h : l.getD i none = none) : l.set i none = l := by
  induction l generalizing i with
  | nil => rfl
  | cons s rest ih =>
      cases i with
      | zero => simp_all [List.set, List.getD]
      | succ j =>
          simp only [List.set, List.cons.injEq, true_and]
          exact ih (by simpa [List.getD] using h)

theorem findSame_spec {tid : String} {l : Formation} {i : Nat}
    (h : findSame tid l = some i) :
    i < l.length ∧ slotHasId tid (l.getD i none) = true := by
  induction l generalizing i with
  | nil => simp [findSame] at h
  | cons s rest ih =>
      by_cases hs : slotHasId tid s
      · simp [findSame, hs] at h
        subst h
        simpa [List.getD] using hs
      · simp [findSame, hs, Option.map_eq_some'] at h
        obtain ⟨j, hj, rfl⟩ := h
        have := ih hj
        simpa [List.getD, Nat.succ_lt_succ_iff] using this

theorem findSamePet_spec {item : Option LibraryItem} {l : Formation} {i : Nat}
    (h : findSamePet item l = some i) :
    i < l.length ∧ petSlotMatches item (l.getD i none) = true := by
  induction l generalizing i with
  | nil => simp [findSamePet] at h
  | cons s rest ih =>
      by_cases hs : petSlotMatches item s
      · simp [findSamePet, hs] at h
        subst h
        simpa [List.getD] using hs
      · simp [findSamePet, hs, Option.map_eq_some'] at h
        obtain ⟨j, hj, rfl⟩ := h
        have := ih hj
        simpa [List.getD, Nat.succ_lt_succ_iff] using this

/-! ### Sample catalog items used in concrete scenarios -/

def itemA : LibraryItem := ⟨"a", "A", "img/a.png"⟩

def itemB : LibraryItem := ⟨"b", "B", "img/b.png"⟩

def itemC : LibraryItem := ⟨"c", "C", "img/c.png"⟩

def itemD : LibraryItem := ⟨"d", "D", "img/d.png"⟩

def itemE : LibraryItem := ⟨"e", "E", "img/e.png"⟩

def itemF : LibraryItem := ⟨"f", "F", "img/f.png"⟩

/-! ### Occupancy counting under updates -/

theorem filledCount_set (l : Formation) (i : Nat) (v : Option LibraryItem)
    (h : i < l.length) :
    filledCount (l.set i v) + (if (l.getD i none).isSome then 1 else 0)
      = filledCount l + (if v.isSome then 1 else 0) := by
  induction l generalizing i with
  | nil => simp at h
  | cons s rest ih =>
      cases i with
      | zero =>
          cases s <;> cases v <;>
            simp [filledCount, List.countP_cons, List.getD]
      | succ j =>
          have hj : j < rest.length := by simpa using h
          have := ih j hj
          cases s <;>
            simp only [List.set, filledCount, List.countP_cons,
              List.getD_cons_succ, Option.isSome] at this ⊢ <;>
            omega

theorem laneCountFrom_set (lane : Nat) (l : Formation) :
    ∀ (k i : Nat) (v : Option LibraryItem), i < l.length →
      laneCountFrom lane k (l.set i v)
          + (if laneOf (k + i) = lane ∧ (l.getD i none).isSome then 1 else 0)
        = laneCountFrom lane k l
          + (if laneOf (k + i) = lane ∧ v.isSome then 1 else 0) := by
  induction l with
  | nil => intro k i v h; simp at h
  | cons s rest ih =>
      intro k i v h
      cases i with
      | zero =>
          simp only [List.set, laneCountFrom, List.getD_cons_zero, Nat.add_zero]
          omega
      | succ j =>
          have hj : j < rest.length := by simpa using h
          have := ih (k + 1) j v hj
          rw [show k + (j + 1) = (k + 1) + j by omega]
          simp only [List.set, laneCountFrom, List.getD_cons_succ] at this ⊢
          omega

theorem laneCount_set (l : Formation) (i : Nat) (v : Option LibraryItem)
    (lane : Nat) (h : i < l.length) :
    laneCount (l.set i v) lane
        + (if laneOf i = lane ∧ (l.getD i none).isSome then 1 else 0)
      = laneCount l lane + (if laneOf i = lane ∧ v.isSome then 1 else 0) := by
  simpa [laneCount] using laneCountFrom_set lane l 0 i v h

theorem formationOk_set_none (l : Formation) (i : Nat) (hok : FormationOk l) :
    FormationOk (l.set i none) := by
  obtain ⟨hf, hl⟩ := hok
  by_cases hi : i < l.length
  · constructor
    · have := filledCount_set l i none hi
      by_cases hs : (l.getD i none).isSome <;> simp [hs] at this <;> omega
    · intro m
      have := laneCount_set l i none m hi
      have hm := hl m
      by_cases h1 : laneOf i = m <;>
        by_cases hs : (l.getD i none).isSome <;>
        simp [h1, hs] at this <;> omega
  · rw [List.set_eq_of_length_le (Nat.le_of_not_lt hi)]
    exact ⟨hf, hl⟩

theorem formationOk_set_some (l : Formation) (i : Nat) (it : LibraryItem)
    (hi : i < l.length) (hok : FormationOk l)
    (hcond : l.getD i none = none →
        filledCount l < 5 ∧ laneCount l (laneOf i) < 2) :
    FormationOk (l.set i (some it)) := by
  obtain ⟨hf, hl⟩ := hok
  rcases hs : l.getD i none with _ | x
  · obtain ⟨hf5, hl2⟩ := hcond hs
    constructor
    · have := filledCount_set l i (some it) hi
      rw [hs] at this
      simp at this
      omega
    · intro m
      have := laneCount_set l i (some it) m hi
      rw [hs] at this
      have hm := hl m
      by_cases h1 : laneOf i = m
      · subst h1
        simp at this
        omega
      · simp [h1] at this
        omega
  · constructor
    · have := filledCount_set l i (some it) hi
      rw [hs] at this
      simp at this
      omega
    · intro m
      have := laneCount_set l i (some it) m hi
      rw [hs] at this
      have hm := hl m
      by_cases h1 : laneOf i = m <;> simp [h1] at this <;> omega

/-- Every `assignFormation` call either rejects (returning `prev`),
clears one position, or places the item at `index` (possibly after
vacating the old position `e` of the same asset), with the capacity
facts recorded by the negated rejection tests. -/
theorem assignFormation_shape (prev : Formation) (index : Nat)
    (item : Option LibraryItem) :
    assignFormation prev index item = prev
    ∨ (∃ i, assignFormation prev index item = prev.set i none)
    ∨ (∃ it, item = some it
        ∧ assignFormation prev index item = prev.set index (some it)
        ∧ (prev.getD index none = none →
            filledCount prev < 5 ∧ laneCount prev (laneOf index) < 2))
    ∨ (∃ it e, item = some it ∧ e < prev.length ∧ e ≠ index
        ∧ (prev.getD e none).isSome
        ∧ assignFormation prev index item
            = (prev.set e none).set index (some it)
        ∧ (prev.getD index none = none →
            laneCount prev (laneOf index) -
                (if laneOf e = laneOf index then 1 else 0) < 2)) := by
  cases item with
  | none => exact Or.inr (Or.inl ⟨index, by simp [assignFormation]⟩)
  | some it =>
      cases hfs : findSame it.id prev with
      | none =>
          by_cases c1 : prev.getD index none = none ∧ filledCount prev ≥ 5
          · refine Or.inl ?_
            simp only [assignFormation, hfs]
            rw [if_pos c1]
          · by_cases c2 : prev.getD index none = none ∧
                laneCount prev (laneOf index) ≥ 2
            · refine Or.inl ?_
              simp only [assignFormation, hfs]
              rw [if_neg c1, if_pos c2]
            · refine Or.inr (Or.inr (Or.inl ⟨it, rfl, ?_, ?_⟩))
              · simp only [assignFormation, hfs]
                rw [if_neg c1, if_neg c2]
              · intro hemp
                constructor
                · by_contra h5
                  exact c1 ⟨hemp, Nat.le_of_not_lt h5⟩
                · by_contra h2
                  exact c2 ⟨hemp, Nat.le_of_not_lt h2⟩
      | some e =>
          by_cases hei : e = index
          · refine Or.inr (Or.inl ⟨e, ?_⟩)
            simp only [assignFormation, hfs]
            rw [if_pos hei]
          · have hspec := findSame_spec hfs
            have hnd : (prev.set e none).getD index none
                = prev.getD index none := getD_set_ne hei
            by_cases c1 : prev.getD index none = none ∧ filledCount prev ≥ 5
            · refine Or.inl ?_
              simp only [assignFormation, hfs]
              rw [if_neg hei, hnd, if_pos c1]
            · by_cases c2 : prev.getD index none = none ∧
                  laneCount prev (laneOf index) -
                    (if laneOf e = laneOf index then 1 else 0) ≥ 2
              · refine Or.inl ?_
                simp only [assignFormation, hfs]
                rw [if_neg hei, hnd, if_neg c1, if_pos c2]
              · refine Or.inr (Or.inr (Or.inr
                  ⟨it, e, rfl, hspec.1, hei, ?_, ?_, ?_⟩))
                · cases h : prev.getD e none with
                  | none => rw [h] at hspec; simp [slotHasId] at hspec
                  | some x => simp
                · simp only [assignFormation, hfs]
                  rw [if_neg hei, hnd, if_neg c1, if_neg c2]
                · intro hemp
                  by_contra h2
                  exact c2 ⟨hemp, Nat.le_of_not_lt h2⟩

theorem assignFormation_length (prev : Formation) (index : Nat)
    (item : Option LibraryItem) :
    (assignFormation prev index item).length = prev.length := by
  rcases assignFormation_shape prev index item with h | ⟨i, h⟩ |
    ⟨it, _, h, _⟩ | ⟨it, e, _, _, _, _, h, _⟩ <;> simp [h]

/-- A single `assignFormation` call preserves the occupancy invariant. -/
theorem assignFormation_preserves (prev : Formation) (index : Nat)
    (item : Option LibraryItem) (hlen : prev.length = 6) (hidx : index < 6)
    (hok : FormationOk prev) :
    FormationOk (assignFormation prev index item) := by
  rcases assignFormation_shape prev index item with h | ⟨i, h⟩ |
    ⟨it, hit, h, hcond⟩ | ⟨it, e, hit, helt, hene, hesome, h, hcond⟩
  · rw [h]; exact hok
  · rw [h]; exact formationOk_set_none prev i hok
  · rw [h]
    exact formationOk_set_some prev index it (by omega) hok hcond
  · rw [h]
    have hok' : FormationOk (prev.set e none) := formationOk_set_none prev e hok
    apply formationOk_set_some _ index it (by simp; omega) hok'
    intro hemp
    have hemp' : prev.getD index none = none := by
      rw [← getD_set_ne hene]; exact hemp
    constructor
    · have := filledCount_set prev e none helt
      rw [hesome] at this
      simp at this
      have := hok.1
      omega
    · have := laneCount_set prev e none (laneOf index) helt
      rw [hesome] at this
      have hc := hcond hemp'
      by_cases hll : laneOf e = laneOf index <;>
        simp [hll] at this hc <;> omega

/-- The initial state satisfies the invariant. -/
theorem initFormation_ok : FormationOk initFormation :=
  ⟨by decide, fun lane => by simp [laneCount, laneCountFrom, initFormation]⟩

theorem applyCalls_ok (calls : List (Nat × Option LibraryItem)) :
    ∀ f : Formation, f.length = 6 → FormationOk f →
      (∀ c ∈ calls, c.1 < 6) →
      FormationOk (applyCalls calls f) ∧ (applyCalls calls f).length = 6 := by
  induction calls with
  | nil => intro f hf hok _; exact ⟨hok, hf⟩
  | cons c rest ih =>
      intro f hf hok hc
      have h1 : FormationOk (assignFormation f c.1 c.2) :=
        assignFormation_preserves f c.1 c.2 hf (hc c (by simp)) hok
      have h2 : (assignFormation f c.1 c.2).length = 6 := by
        rw [assignFormation_length]; exact hf
      have h3 := ih (assignFormation f c.1 c.2) h2 h1
        (fun x hx => hc x (by simp [hx]))
      simpa [applyCalls] using h3

/-! ### C1: occupancy invariant over all call sequences -/

/-- C1: for every sequence of `assignFormation` calls (each targeting
one of the 6 positions) starting from the all-empty formation, the
resulting state — hence every intermediate state, since every prefix is
itself such a sequence — has at most 5 occupied positions and at most
2 occupied positions in each of the back (0), mid (1) and front (2)
lanes. -/
theorem formation_invariant (calls : List (Nat × Option LibraryItem))
    (hcalls : ∀ c ∈ calls, c.1 < 6) :
    filledCount (applyCalls calls initFormation) ≤ 5
    ∧ laneCount (applyCalls calls initFormation) 0 ≤ 2
    ∧ laneCount (applyCalls calls initFormation) 1 ≤ 2
    ∧ laneCount (applyCalls calls initFormation) 2 ≤ 2 := by
  have h := (applyCalls_ok calls initFormation rfl initFormation_ok hcalls).1
  exact ⟨h.1, h.2 0, h.2 1, h.2 2⟩

/-- Witness for `formation_invariant` on a concrete call sequence that
exercises placement, relocation and rejection. -/
theorem formation_invariant_witness :
    filledCount (applyCalls
        [(0, some itemA), (1, some itemB), (2, some itemC), (4, some itemD),
          (5, some itemE), (3, some itemF), (3, some itemA)]
        initFormation) ≤ 5
    ∧ laneCount (applyCalls
        [(0, some itemA), (1, some itemB), (2, some itemC), (4, some itemD),
          (5, some itemE), (3, some itemF), (3, some itemA)]
        initFormation) 0 ≤ 2
    ∧ laneCount (applyCalls
        [(0, some itemA), (1, some itemB), (2, some itemC), (4, some itemD),
          (5, some itemE), (3, some itemF), (3, some itemA)]
        initFormation) 1 ≤ 2
    ∧ laneCount (applyCalls
        [(0, some itemA), (1, some itemB), (2, some itemC), (4, some itemD),
          (5, some itemE), (3, some itemF), (3, some itemA)]
        initFormation) 2 ≤ 2 :=
  formation_invariant
    [(0, some itemA), (1, some itemB), (2, some itemC), (4, some itemD),
      (5, some itemE), (3, some itemF), (3, some itemA)]
    (by decide)

/-! ### C4: toggle / relocate scenario -/

/-- C4: starting from the all-empty 6-position formation,
`assignFormation(0, A)` puts `A` at position 0 (back lane count 1,
total 1); `assignFormation(1, A)` moves `A` to position 1 (position 0
empties, back lane count still 1, total 1); `assignFormation(1, A)`
again toggles it off (total 0), all other positions unchanged. -/
theorem formation_toggle_scenario :
    assignFormation initFormation 0 (some itemA)
        = [some itemA, none, none, none, none, none]
    ∧ assignFormation [some itemA, none, none, none, none, none] 1 (some itemA)
        = [none, some itemA, none, none, none, none]
    ∧ assignFormation [none, some itemA, none, none, none, none] 1 (some itemA)
        = initFormation
    ∧ filledCount [some itemA, none, none, none, none, none] = 1
    ∧ laneCount [some itemA, none, none, none, none, none] 0 = 1
    ∧ filledCount [none, some itemA, none, none, none, none] = 1
    ∧ laneCount [none, some itemA, none, none, none, none] 0 = 1
    ∧ filledCount initFormation = 0 := by decide

/-! ### C2: relocation of an already-placed asset -/

/-- C2 counterexample: in the fully occupied (5/5) formation
`[A, B, C, D, E, null]`, relocating `E` (currently at position 4) to
the empty position 5 is rejected — the call returns the state
unchanged — because the `filled >= 5` check uses the occupancy count
taken *before* the old position is vacated.  The claim asserts this
relocation succeeds. -/
theorem formation_full_relocate_counterexample :
    assignFormation [some itemA, some itemB, some itemC, some itemD,
        some itemE, none] 5 (some itemE)
      = [some itemA, some itemB, some itemC, some itemD, some itemE, none]
    ∧ filledCount [some itemA, some itemB, some itemC, some itemD,
        some itemE, none] = 5
    ∧ findSame itemE.id [some itemA, some itemB, some itemC, some itemD,
        some itemE, none] = some 4
    ∧ ([some itemA, some itemB, some itemC, some itemD, some itemE, none] :
        Formation).getD 5 none = none := by decide

/-- C2 (amended): if asset `a` occupies position `q` and `p ≠ q`, then
`assignFormation(p, a)` vacates `q` and places `a` at `p` whenever the
target position is already occupied, or the *pre-call* total occupancy
is below 5 and the target lane's count, decremented for the vacated
position, is below 2.  (The total-occupancy check is *not* adjusted
for the vacated position, so relocating into an empty position of a
5/5 formation is rejected.) -/
theorem assignFormation_relocate_amended
    (prev : Formation) (p q : Nat) (a : LibraryItem)
    (hq : findSame a.id prev = some q) (hne : q ≠ p)
    (hpass : prev.getD p none ≠ none ∨
      (filledCount prev < 5 ∧
        laneCount prev (laneOf p) -
          (if laneOf q = laneOf p then 1 else 0) < 2)) :
    assignFormation prev p (some a) = (prev.set q none).set p (some a) := by
  have hnd : (prev.set q none).getD p none = prev.getD p none := getD_set_ne hne
  simp only [assignFormation, hq]
  simp only [if_neg hne, hnd]
  rcases hpass with hocc | ⟨hfill, hlane⟩
  · rw [if_neg (fun h => absurd h.1 hocc), if_neg (fun h => absurd h.1 hocc)]
  · rw [if_neg (fun h => absurd h.2 (by omega)),
      if_neg (fun h => absurd h.2 (by omega))]

/-- Witness for `assignFormation_relocate_amended`: with `A` at
position 0 and `B` at position 1, relocating `A` to the empty mid-lane
position 2 succeeds. -/
theorem assignFormation_relocate_amended_witness :
    assignFormation [some itemA, some itemB, none, none, none, none] 2
        (some itemA)
      = (([some itemA, some itemB, none, none, none, none] : Formation).set 0
          none).set 2 (some itemA) :=
  assignFormation_relocate_amended
    [some itemA, some itemB, none, none, none, none] 2 0 itemA (by decide)
    (by decide) (Or.inr (by decide))

/-! ### C3: silent rejection leaves the state unchanged -/

/-- C3: when `assignFormation` hits a policy violation — the target
position is empty and the asset is not already placed, and either the
formation already has 5 occupied positions or the target lane already
holds 2 — the call returns the prior state unchanged at every
position (the operation has no failure path: it is a total function
returning the previous array). -/
theorem assignFormation_reject_unchanged
    (prev : Formation) (index : Nat) (it : LibraryItem)
    (hnew : findSame it.id prev = none)
    (hempty : prev.getD index none = none)
    (hviol : filledCount prev ≥ 5 ∨ laneCount prev (laneOf index) ≥ 2) :
    assignFormation prev index (some it) = prev := by
  simp only [assignFormation, hnew]
  by_cases hfill : filledCount prev ≥ 5
  · rw [if_pos ⟨hempty, hfill⟩]
  · have hlane : laneCount prev (laneOf index) ≥ 2 := by tauto
    rw [if_neg (by tauto), if_pos ⟨hempty, hlane⟩]

/-- Witness for `assignFormation_reject_unchanged`: assigning the 6th
distinct asset `F` to the single empty position of a 5/5 formation is
a no-op. -/
theorem assignFormation_reject_unchanged_witness :
    assignFormation [some itemA, some itemB, some itemC, some itemD,
        some itemE, none] 5 (some itemF)
      = [some itemA, some itemB, some itemC, some itemD, some itemE, none] :=
  assignFormation_reject_unchanged
    [some itemA, some itemB, some itemC, some itemD, some itemE, none] 5 itemF
    (by decide) (by decide) (Or.inl (by decide))

/-! ### C5: pet formation move-or-clear -/

/-- C5 counterexample: assigning pet `A` to its own current position 0
does *not* toggle it off — `assignPetFormation` unconditionally writes
the item at the target index, so position 0 still holds `A`, where the
claim requires the position to become empty. -/
theorem pet_self_assign_counterexample :
    assignPetFormation [some itemA, none, none] 0 (some itemA)
        = [some itemA, none, none]
    ∧ ([some itemA, none, none] : Formation).getD 0 none = some itemA := by
  decide

/-- C5 (amended): `assignPetFormation` clears the target position when
passed `null`; assigning a pet already held at a different position
vacates that position and places the pet at the target; but assigning
a pet to its own current position *re-writes it in place* (the
position still holds the pet — there is no toggle-off); no other
position changes. -/
theorem assignPetFormation_amended
    (prev : Formation) (p q : Nat) (a : LibraryItem)
    (hlen : prev.length = 3) (hp : p < 3)
    (hq : findSamePet (some a) prev = some q) :
    ((assignPetFormation prev p none).getD p none = none
      ∧ ∀ j, j ≠ p →
          (assignPetFormation prev p none).getD j none = prev.getD j none)
    ∧ (assignPetFormation prev p (some a)).getD p none = some a
    ∧ (q ≠ p → (assignPetFormation prev p (some a)).getD q none = none)
    ∧ ∀ j, j ≠ p → j ≠ q →
        (assignPetFormation prev p (some a)).getD j none = prev.getD j none := by
  have hplen : p < prev.length := hlen ▸ hp
  refine ⟨?_, ?_, ?_, ?_⟩
  · -- clearing with `null`: the finder may hit the first empty slot,
    -- but vacating an empty slot is a no-op
    cases he : findSamePet (none : Option LibraryItem) prev with
    | none =>
        simp only [assignPetFormation, he]
        exact ⟨getD_set_self hplen, fun j hj => getD_set_ne (Ne.symm hj)⟩
    | some e =>
        have hspec := findSamePet_spec he
        have hee : prev.getD e none = none := by
          rcases hget : prev.getD e none with _ | x
          · rfl
          · rw [hget] at hspec
            simp [petSlotMatches] at hspec
        simp only [assignPetFormation, he]
        by_cases hep : e ≠ p
        · rw [if_pos hep, set_none_eq_self hee]
          exact ⟨getD_set_self hplen, fun j hj => getD_set_ne (Ne.symm hj)⟩
        · rw [if_neg hep]
          exact ⟨getD_set_self hplen, fun j hj => getD_set_ne (Ne.symm hj)⟩
  · simp only [assignPetFormation, hq]
    by_cases hqp : q ≠ p
    · rw [if_pos hqp]
      exact getD_set_self (by simpa using hplen)
    · rw [if_neg hqp]
      exact getD_set_self hplen
  · intro hqp
    simp only [assignPetFormation, hq]
    rw [if_pos hqp]
    rw [getD_set_ne (Ne.symm hqp)]
    rcases Nat.lt_or_ge q prev.length with hql | hql
    · exact getD_set_self hql
    · rw [List.set_eq_of_length_le hql]
      simp [List.getD_eq_getElem?_getD, List.getElem?_eq_none hql]
  · intro j hjp hjq
    simp only [assignPetFormation, hq]
    by_cases hqp : q ≠ p
    · rw [if_pos hqp, getD_set_ne (Ne.symm hjp), getD_set_ne (Ne.symm hjq)]
    · rw [if_neg hqp, getD_set_ne (Ne.symm hjp)]

/-- Witness for `assignPetFormation_amended` at the concrete state
`[A, B, null]` with target position 2 and pet `A` at position 0. -/
theorem assignPetFormation_amended_witness :
    ((assignPetFormation [some itemA, some itemB, none] 2 none).getD 2 none
          = none
      ∧ ∀ j, j ≠ 2 →
          (assignPetFormation [some itemA, some itemB, none] 2 none).getD j
              none
            = ([some itemA, some itemB, none] : Formation).getD j none)
    ∧ (assignPetFormation [some itemA, some itemB, none] 2
          (some itemA)).getD 2 none = some itemA
    ∧ ((0 : Nat) ≠ 2 →
        (assignPetFormation [some itemA, some itemB, none] 2
            (some itemA)).getD 0 none = none)
    ∧ ∀ j, j ≠ 2 → j ≠ 0 →
        (assignPetFormation [some itemA, some itemB, none] 2
            (some itemA)).getD j none
          = ([some itemA, some itemB, none] : Formation).getD j none :=
  assignPetFormation_amended [some itemA, some itemB, none] 2 0 itemA
    (by decide) (by decide) (by decide)

/-! ### Canvas layout geometry (`drawCanvas`, lines 1168-1198)

Logical (pre-devicePixelRatio) canvas coordinates, modelled as exact
rationals; the TypeScript computes the same formulas in IEEE floats,
and both draw pass and overlay use the identical expressions. -/

/-- An axis-aligned rectangle in logical canvas coordinates. -/
structure Rect where
  x : ℚ
  y : ℚ
  w : ℚ
  h : ℚ
deriving DecidableEq, Repr

/-- `const padding = 16`. -/
def dcPadding : ℚ := 16

/-- `const slotWidth = (canvasWidth - padding * 2 - 16 * 4) / 5`. -/
def dcSlotWidth (w : ℚ) : ℚ := (w - dcPadding * 2 - 16 * 4) / 5

/-- `const charImageHeight = Math.min(slotWidth * (4 / 3), 280)`. -/
def dcCharImageHeight (w : ℚ) : ℚ := min (dcSlotWidth w * (4 / 3)) 280

/-- `const cardImageHeight = Math.min(slotWidth * (8 / 5), 280)`. -/
def dcCardImageHeight (w : ℚ) : ℚ := min (dcSlotWidth w * (8 / 5)) 280

/-- `const equipSize = 52`. -/
def dcEquipSize : ℚ := 52

/-- `const slotsHeight = charImageHeight + cardImageHeight + equipSize + 32`. -/
def dcSlotsHeight (w : ℚ) : ℚ :=
  dcCharImageHeight w + dcCardImageHeight w + dcEquipSize + 32

/-- `const bottomSectionHeight = 180`. -/
def dcBottomSectionHeight : ℚ := 180

/-- `const calculatedHeight = padding + slotsHeight + 12 + bottomSectionHeight + padding`. -/
def dcCalculatedHeight (w : ℚ) : ℚ :=
  dcPadding + dcSlotsHeight w + 12 + dcBottomSectionHeight + dcPadding

/-- `const slotPadding = 8`. -/
def dcSlotPadding : ℚ := 8

/-- `const x = padding + i * (slotWidth + 16)` then `slotX = x + slotPadding`. -/
def dcSlotContentX (w : ℚ) (i : Nat) : ℚ :=
  dcPadding + (i : ℚ) * (dcSlotWidth w + 16) + dcSlotPadding

/-- Rectangle at which `drawCanvas` draws slot `i`'s character image
(and its loading/empty fallbacks). -/
def dcCharRect (w : ℚ) (i : Nat) : Rect :=
  { x := dcSlotContentX w i
    y := dcPadding + dcSlotPadding
    w := dcSlotWidth w - dcSlotPadding * 2
    h := dcCharImageHeight w }

/-- Rectangle at which `drawCanvas` draws slot `i`'s card image
(`slotY += charImageHeight + 12` after the character block). -/
def dcCardRect (w : ℚ) (i : Nat) : Rect :=
  { x := dcSlotContentX w i
    y := dcPadding + dcSlotPadding + dcCharImageHeight w + 12
    w := dcSlotWidth w - dcSlotPadding * 2
    h := dcCardImageHeight w }

/-- `const equipItemWidth = (equipTotalWidth - equipGap * 3) / 4` with
`equipTotalWidth = slotWidth - slotPadding * 2` and `equipGap = 6`. -/
def dcEquipItemWidth (w : ℚ) : ℚ :=
  (dcSlotWidth w - dcSlotPadding * 2 - 6 * 3) / 4

/-- Rectangle of equipment cell `j` in slot `i`
(`equipX = slotX + j * (equipItemWidth + equipGap)`, drawn at
`slotY + 6` after the card block advanced `slotY` twice). -/
def dcEquipCellRect (w : ℚ) (i j : Nat) : Rect :=
  { x := dcSlotContentX w i + (j : ℚ) * (dcEquipItemWidth w + 6)
    y := dcPadding + dcSlotPadding + dcCharImageHeight w + 12 +
        dcCardImageHeight w + 12 + 6
    w := dcEquipItemWidth w
    h := dcEquipSize }

/-! ### `canvasLayout` memo (lines 1800-1819) and the overlay buttons
(lines 1879-1949) -/

/-- The `canvasLayout` record computed once by the page component with
a hard-coded `width = 1280`. -/
structure CanvasLayout where
  padding : ℚ
  slotWidth : ℚ
  charImageHeight : ℚ
  cardImageHeight : ℚ
  equipSize : ℚ
  slotPadding : ℚ
  gap : ℚ
deriving DecidableEq, Repr

/-- `canvasLayout` from `page.tsx` lines 1800-1819. -/
def canvasLayout : CanvasLayout :=
  let width : ℚ := 1280
  let padding : ℚ := 16
  let slotWidth : ℚ := (width - padding * 2 - 16 * 4) / 5
  { padding := padding
    slotWidth := slotWidth
    charImageHeight := min (slotWidth * (4 / 3)) 280
    cardImageHeight := min (slotWidth * (8 / 5)) 280
    equipSize := 52
    slotPadding := 8
    gap := 16 }

/-- Origin of overlay slot `i` in canvas coordinates: the overlay
wrapper is absolutely positioned at the canvas origin, the inner
element adds `paddingLeft`/`paddingTop` of `canvasLayout.padding`, and
slot `i` sits at `idx * (slotWidth + gap)` within the flex row. -/
def overlaySlotOrigin (i : Nat) : ℚ × ℚ :=
  (canvasLayout.padding + (i : ℚ) * (canvasLayout.slotWidth + canvasLayout.gap),
    canvasLayout.padding)

/-- Character button overlay rectangle: `left/top = slotPadding`,
`width = slotWidth - slotPadding * 2`, `height = charImageHeight`. -/
def overlayCharButtonRect (i : Nat) : Rect :=
  { x := (overlaySlotOrigin i).1 + canvasLayout.slotPadding
    y := (overlaySlotOrigin i).2 + canvasLayout.slotPadding
    w := canvasLayout.slotWidth - canvasLayout.slotPadding * 2
    h := canvasLayout.charImageHeight }

/-- Card button overlay rectangle:
`top = slotPadding + charImageHeight + 12`. -/
def overlayCardButtonRect (i : Nat) : Rect :=
  { x := (overlaySlotOrigin i).1 + canvasLayout.slotPadding
    y := (overlaySlotOrigin i).2 + canvasLayout.slotPadding +
        canvasLayout.charImageHeight + 12
    w := canvasLayout.slotWidth - canvasLayout.slotPadding * 2
    h := canvasLayout.cardImageHeight }

/-- Equipment button overlay rectangle for kind index `j`
(`equipX = slotX + equipIdx * (equipItemWidth + equipGap)`,
`equipY = slotY + 6`). -/
def overlayEquipButtonRect (i j : Nat) : Rect :=
  let equipGap : ℚ := 6
  let equipTotalWidth : ℚ :=
    canvasLayout.slotWidth - canvasLayout.slotPadding * 2
  let equipItemWidth : ℚ := (equipTotalWidth - equipGap * 3) / 4
  let slotX : ℚ := canvasLayout.slotPadding
  let slotY : ℚ := canvasLayout.slotPadding + canvasLayout.charImageHeight +
      12 + canvasLayout.cardImageHeight + 12
  { x := (overlaySlotOrigin i).1 + slotX + (j : ℚ) * (equipItemWidth + equipGap)
    y := (overlaySlotOrigin i).2 + slotY + 6
    w := equipItemWidth
    h := canvasLayout.equipSize }

/-- C6: at the shared canvas width 1280, for every character slot and
every sub-region (character image, card image and each of the four
equipment cells), the clickable overlay rectangle computed from
`canvasLayout` and the overlay offset arithmetic coincides exactly —
same x, y, width and height — with the rectangle at which `drawCanvas`
draws that sub-region. -/
theorem overlay_matches_draw :
    ∀ i : Fin 5, ∀ j : Fin 4,
      overlayCharButtonRect i = dcCharRect 1280 i
      ∧ overlayCardButtonRect i = dcCardRect 1280 i
      ∧ overlayEquipButtonRect i j = dcEquipCellRect 1280 i j := by
  intro i j
  refine ⟨?_, ?_, ?_⟩ <;>
    simp only [overlayCharButtonRect, overlayCardButtonRect,
      overlayEquipButtonRect, overlaySlotOrigin, canvasLayout, dcCharRect,
      dcCardRect, dcEquipCellRect, dcSlotContentX, dcCharImageHeight,
      dcCardImageHeight, dcSlotWidth, dcEquipItemWidth, dcPadding,
      dcSlotPadding, dcEquipSize, Rect.mk.injEq] <;>
    exact ⟨by ring, by ring, by ring, by ring⟩

/-! ### Drawing operations emitted by `drawCanvas`

The draw pass is modelled as the list of primitive canvas operations
issued for each sub-region; image residency
(`imageCache.get(src)` present and `.complete`) is abstracted as a
`ready : String → Bool` oracle, and `ctx.measureText` as a
`measure : String → ℚ` oracle. -/

/-- A primitive 2D-canvas operation. -/
inductive CanvasOp where
  | fillRect (x y w h : ℚ)
  | strokeRect (x y w h : ℚ)
  | strokeRectDashed (x y w h : ℚ)
  | roundRectFill (x y w h : ℚ)
  | roundRectStroke (x y w h : ℚ)
  | drawImage (src : String) (x y w h : ℚ)
  | fillText (text : String) (x y : ℚ)
deriving DecidableEq, Repr

/-- The `equips` object of a character slot. -/
structure Equips where
  weapon : Option LibraryItem
  armor : Option LibraryItem
  helmet : Option LibraryItem
  roon : Option LibraryItem
deriving DecidableEq, Repr

/-- A `CharSlot` record (`{ id, char, card, equips }`). -/
structure CharSlot where
  id : String
  char : Option LibraryItem
  card : Option LibraryItem
  equips : Equips
deriving DecidableEq, Repr

def emptyEquips : Equips := ⟨none, none, none, none⟩

/-- The pristine all-null slot shape from `initialCharSlots`. -/
def emptyCharSlot : CharSlot := ⟨"", none, none, emptyEquips⟩

/-- `equipKinds[j]` lookup: `["weapon", "armor", "helmet", "roon"]`. -/
def equipKindAt (e : Equips) (j : Nat) : Option LibraryItem :=
  match j with
  | 0 => e.weapon
  | 1 => e.armor
  | 2 => e.helmet
  | _ => e.roon

/-- `equipLabels` lookup: `{ weapon: "W", armor: "A", helmet: "H", roon: "R" }`. -/
def equipLabelAt (j : Nat) : String :=
  match j with
  | 0 => "W"
  | 1 => "A"
  | 2 => "H"
  | _ => "R"

/-- Character image block of `drawCanvas` (lines 1219-1255): loaded
image plus name bar, or solid fallback rectangle with centred name, or
dashed empty hint. -/
def drawCharRegionOps (w : ℚ) (i : Nat) (ch : Option LibraryItem)
    (ready : String → Bool) : List CanvasOp :=
  let r := dcCharRect w i
  match ch with
  | some c =>
      if ready c.src then
        [CanvasOp.drawImage c.src r.x r.y r.w r.h,
          CanvasOp.fillRect r.x (r.y + r.h - 40) r.w 40,
          CanvasOp.fillText c.name (r.x + r.w / 2) (r.y + r.h - 40 / 2)]
      else
        [CanvasOp.fillRect r.x r.y r.w r.h,
          CanvasOp.fillText c.name (r.x + r.w / 2) (r.y + r.h / 2)]
  | none =>
      [CanvasOp.strokeRectDashed r.x r.y r.w r.h,
        CanvasOp.fillText "캐릭터 선택" (r.x + r.w / 2) (r.y + r.h / 2)]

/-- Card image block of `drawCanvas` (lines 1260-1297). -/
def drawCardRegionOps (w : ℚ) (i : Nat) (cd : Option LibraryItem)
    (ready : String → Bool) : List CanvasOp :=
  let r := dcCardRect w i
  match cd with
  | some c =>
      if ready c.src then
        [CanvasOp.drawImage c.src r.x r.y r.w r.h,
          CanvasOp.fillRect r.x (r.y + r.h - 32) r.w 32,
          CanvasOp.fillText c.name (r.x + r.w / 2) (r.y + r.h - 32 / 2)]
      else
        [CanvasOp.fillRect r.x r.y r.w r.h,
          CanvasOp.fillText c.name (r.x + r.w / 2) (r.y + r.h / 2)]
  | none =>
      [CanvasOp.strokeRectDashed r.x r.y r.w r.h,
        CanvasOp.fillText "카드 선택" (r.x + r.w / 2) (r.y + r.h / 2)]

/-- Equipment cell `j` of slot `i` (lines 1313-1337): the generic cell
background, then the equipped image when resident, the kind glyph when
empty — and *nothing extra* when an equipped image is not resident. -/
def drawEquipCellOps (w : ℚ) (i j : Nat) (eqp : Option LibraryItem)
    (ready : String → Bool) : List CanvasOp :=
  let r := dcEquipCellRect w i j
  [CanvasOp.roundRectFill r.x r.y r.w r.h,
    CanvasOp.roundRectStroke r.x r.y r.w r.h]
  ++ match eqp with
      | some e =>
          if ready e.src then [CanvasOp.drawImage e.src r.x r.y r.w r.h]
          else []
      | none =>
          [CanvasOp.fillText (equipLabelAt j) (r.x + r.w / 2) (r.y + r.h / 2)]

/-! Pet-lane geometry of `drawCanvas` (lines 1344-1426). -/

def petSectionWidth (w : ℚ) : ℚ := (w - dcPadding * 2 - 12) * (3 / 5)

def petBoxWidth (w : ℚ) : ℚ := (petSectionWidth w - 16 - 8) / 3

def bottomSectionY (w : ℚ) : ℚ := dcPadding + dcSlotsHeight w + 12

def petBoxY (w : ℚ) : ℚ := bottomSectionY w + 8

def petBoxHeight : ℚ := 144

def petX (w : ℚ) (i : Nat) : ℚ := dcPadding + 8 + (i : ℚ) * (petBoxWidth w + 4)

def petImageSize : ℚ := 80

def petImageX (w : ℚ) (i : Nat) : ℚ :=
  petX w i + (petBoxWidth w - petImageSize) / 2

def petImageY (w : ℚ) : ℚ := petBoxY w + 36

/-- Lane labels `["후열", "중열", "전열"]`. -/
def laneLabel (i : Nat) : String :=
  match i with
  | 0 => "후열"
  | 1 => "중열"
  | _ => "전열"

/-- `getLaneIconSrc`. -/
def laneIconSrc (i : Nat) : String :=
  match i with
  | 0 => "/assets/lane-back.png"
  | 1 => "/assets/lane-mid.png"
  | _ => "/assets/lane-front.png"

/-- The pet image slot of lane box `i` (lines 1406-1425): bordered
image when resident, dashed empty glyph when no pet is assigned — and
*nothing at all* when an assigned pet's image is not resident. -/
def drawPetImageOps (w : ℚ) (i : Nat) (pet : Option LibraryItem)
    (ready : String → Bool) : List CanvasOp :=
  match pet with
  | some p =>
      if ready p.src then
        [CanvasOp.strokeRect (petImageX w i) (petImageY w) petImageSize
            petImageSize,
          CanvasOp.drawImage p.src (petImageX w i) (petImageY w) petImageSize
            petImageSize]
      else []
  | none =>
      [CanvasOp.strokeRectDashed (petImageX w i) (petImageY w) petImageSize
          petImageSize,
        CanvasOp.fillText "빈칸" (petImageX w i + petImageSize / 2)
          (petImageY w + petImageSize / 2)]

/-- Full lane box `i` of the pet-formation region (lines 1365-1426). -/
def drawPetBoxOps (w : ℚ) (i : Nat) (pet : Option LibraryItem)
    (ready : String → Bool) (measure : String → ℚ) : List CanvasOp :=
  let startX := petX w i +
    (petBoxWidth w - (16 + 8 + measure (laneLabel i))) / 2
  [CanvasOp.roundRectFill (petX w i) (petBoxY w) (petBoxWidth w) petBoxHeight,
    CanvasOp.strokeRect (petX w i) (petBoxY w) (petBoxWidth w) petBoxHeight]
  ++ (if ready (laneIconSrc i) then
        [CanvasOp.drawImage (laneIconSrc i) startX (petBoxY w + 8) 16 16]
      else [])
  ++ [CanvasOp.fillText (laneLabel i) (startX + 16 + 8) (petBoxY w + 8 + 8)]
  ++ drawPetImageOps w i pet ready

/-! ### C8: placeholder policy -/

/-- Whether an operation paints region content (a fill, a text or an
image) as opposed to a border or background round-rect. -/
def isContentOp : CanvasOp → Bool
  | CanvasOp.fillRect _ _ _ _ => true
  | CanvasOp.drawImage _ _ _ _ _ => true
  | CanvasOp.fillText _ _ _ => true
  | _ => false

/-- C8 counterexample: with equipment `F` assigned to cell 0 of slot 0
and no image resident, the cell emits *no* content operation at all
beyond the generic cell background (in particular no fallback
rectangle and no name text), and an assigned pet whose image is not
resident draws *nothing* in the pet image slot — both contradicting
the claim that every assigned asset gets a named fallback rectangle. -/
theorem placeholder_missing_counterexample :
    ((drawEquipCellOps 1280 0 0 (some itemF) (fun _ => false)).any
        isContentOp) = false
    ∧ drawPetImageOps 1280 0 (some itemA) (fun _ => false) = [] := by
  decide

/-- C8 (amended): when an assigned asset's image is not resident, the
draw pass renders a solid fallback rectangle with the asset's name
centred for *characters and cards* only; an assigned equipment cell
draws just the generic cell background (no name, no fallback), and an
assigned pet draws nothing in its image slot. -/
theorem placeholder_fallback_amended (c : LibraryItem)
    (ready : String → Bool) (i j : Nat) (hnr : ready c.src = false) :
    drawCharRegionOps 1280 i (some c) ready
      = [CanvasOp.fillRect (dcCharRect 1280 i).x (dcCharRect 1280 i).y
            (dcCharRect 1280 i).w (dcCharRect 1280 i).h,
          CanvasOp.fillText c.name
            ((dcCharRect 1280 i).x + (dcCharRect 1280 i).w / 2)
            ((dcCharRect 1280 i).y + (dcCharRect 1280 i).h / 2)]
    ∧ drawCardRegionOps 1280 i (some c) ready
      = [CanvasOp.fillRect (dcCardRect 1280 i).x (dcCardRect 1280 i).y
            (dcCardRect 1280 i).w (dcCardRect 1280 i).h,
          CanvasOp.fillText c.name
            ((dcCardRect 1280 i).x + (dcCardRect 1280 i).w / 2)
            ((dcCardRect 1280 i).y + (dcCardRect 1280 i).h / 2)]
    ∧ drawEquipCellOps 1280 i j (some c) ready
      = [CanvasOp.roundRectFill (dcEquipCellRect 1280 i j).x
            (dcEquipCellRect 1280 i j).y (dcEquipCellRect 1280 i j).w
            (dcEquipCellRect 1280 i j).h,
          CanvasOp.roundRectStroke (dcEquipCellRect 1280 i j).x
            (dcEquipCellRect 1280 i j).y (dcEquipCellRect 1280 i j).w
            (dcEquipCellRect 1280 i j).h]
    ∧ drawPetImageOps 1280 i (some c) ready = [] := by
  refine ⟨?_, ?_, ?_, ?_⟩ <;>
    simp [drawCharRegionOps, drawCardRegionOps, drawEquipCellOps,
      drawPetImageOps, hnr]

/-- Witness for `placeholder_fallback_amended` at asset `A`, slot 0,
equipment cell 1, with an empty image cache. -/
theorem placeholder_fallback_amended_witness :
    drawCharRegionOps 1280 0 (some itemA) (fun _ => false)
      = [CanvasOp.fillRect (dcCharRect 1280 0).x (dcCharRect 1280 0).y
            (dcCharRect 1280 0).w (dcCharRect 1280 0).h,
          CanvasOp.fillText itemA.name
            ((dcCharRect 1280 0).x + (dcCharRect 1280 0).w / 2)
            ((dcCharRect 1280 0).y + (dcCharRect 1280 0).h / 2)]
    ∧ drawCardRegionOps 1280 0 (some itemA) (fun _ => false)
      = [CanvasOp.fillRect (dcCardRect 1280 0).x (dcCardRect 1280 0).y
            (dcCardRect 1280 0).w (dcCardRect 1280 0).h,
          CanvasOp.fillText itemA.name
            ((dcCardRect 1280 0).x + (dcCardRect 1280 0).w / 2)
            ((dcCardRect 1280 0).y + (dcCardRect 1280 0).h / 2)]
    ∧ drawEquipCellOps 1280 0 1 (some itemA) (fun _ => false)
      = [CanvasOp.roundRectFill (dcEquipCellRect 1280 0 1).x
            (dcEquipCellRect 1280 0 1).y (dcEquipCellRect 1280 0 1).w
            (dcEquipCellRect 1280 0 1).h,
          CanvasOp.roundRectStroke (dcEquipCellRect 1280 0 1).x
            (dcEquipCellRect 1280 0 1).y (dcEquipCellRect 1280 0 1).w
            (dcEquipCellRect 1280 0 1).h]
    ∧ drawPetImageOps 1280 0 (some itemA) (fun _ => false) = [] :=
  placeholder_fallback_amended itemA (fun _ => false) 0 1 rfl

/-! ### Note region: manual text layout (`drawCanvas` lines 1456-1511)

JavaScript string helpers are embedded structurally over `List Char`:
`jsSplit p` models `String.prototype.split` (on a character class),
`jsTrim` models `trim()`. -/

/-- `split` on a character predicate, JS semantics (`"".split` gives
`[""]`, separators delimit possibly-empty fields). -/
def splitChars (p : Char → Bool) : List Char → List (List Char)
  | [] => [[]]
  | c :: rest =>
      if p c then [] :: splitChars p rest
      else
        match splitChars p rest with
        | [] => [[c]]
        | h :: t => (c :: h) :: t

/-- `s.split(sep)` for a single-character class `sep`. -/
def jsSplit (p : Char → Bool) (s : String) : List String :=
  (splitChars p s.data).map (fun cs => String.mk cs)

/-- `s.trim()`. -/
def jsTrim (s : String) : String :=
  String.mk
    (((s.data.dropWhile Char.isWhitespace).reverse.dropWhile
        Char.isWhitespace).reverse)

/-- `paragraph.trim().split(/\s+/).filter(word => word.length > 0)`. -/
def splitWords (p : String) : List String :=
  (jsSplit (fun c => c.isWhitespace) (jsTrim p)).filter
    (fun w => w.length > 0)

/-- `const testLine = currentLine ? currentLine + " " + word : word`. -/
def testLineOf (currentLine word : String) : String :=
  if currentLine ≠ "" then currentLine ++ " " ++ word else word

/-- The `for (const word of words)` loop body: returns the updated
`lines` array and the final `currentLine`. -/
def wrapWords (measure : String → ℚ) (areaW : ℚ) (maxL : Nat) :
    List String → List String → String → List String × String
  | lines, [], currentLine => (lines, currentLine)
  | lines, word :: rest, currentLine =>
      if lines.length ≥ maxL then (lines, currentLine)
      else if measure (testLineOf currentLine word) > areaW ∧
          currentLine ≠ "" then
        wrapWords measure areaW maxL (lines ++ [currentLine]) rest word
      else
        wrapWords measure areaW maxL lines rest (testLineOf currentLine word)

/-- One iteration of the `for (const paragraph of paragraphs)` loop. -/
def wrapParagraph (measure : String → ℚ) (areaW : ℚ) (maxL : Nat)
    (lines : List String) (p : String) : List String :=
  if lines.length ≥ maxL then lines
  else if (jsTrim p).length = 0 then
    if lines.length < maxL then lines ++ [""] else lines
  else
    let res := wrapWords measure areaW maxL lines (splitWords p) ""
    if res.2 ≠ "" ∧ res.1.length < maxL then res.1 ++ [res.2] else res.1

/-- The complete `lines` computation of the note region: split
`noteText` on newlines, then wrap each paragraph greedily. -/
def wrapNote (measure : String → ℚ) (areaW : ℚ) (maxL : Nat)
    (text : String) : List String :=
  (jsSplit (fun c => c = '\n') text).foldl
    (wrapParagraph measure areaW maxL) []

/-- `const noteSectionWidth = (canvasWidth - padding * 2 - 12) * 0.4`. -/
def noteSectionWidth (w : ℚ) : ℚ := (w - dcPadding * 2 - 12) * (2 / 5)

/-- `const notePadding = 12`. -/
def notePadding : ℚ := 12

/-- `const noteX = padding + petSectionWidth + 12`. -/
def noteX (w : ℚ) : ℚ := dcPadding + petSectionWidth w + 12

/-- `const noteStartY = bottomSectionY + 40`. -/
def noteStartY (w : ℚ) : ℚ := bottomSectionY w + 40

/-- `const noteAreaWidth = noteSectionWidth - notePadding * 2`. -/
def noteAreaWidth (w : ℚ) : ℚ := noteSectionWidth w - notePadding * 2

/-- `const noteAreaHeight = bottomSectionHeight - 40 - notePadding`. -/
def noteAreaHeight : ℚ := dcBottomSectionHeight - 40 - notePadding

/-- `const lineHeight = 20`. -/
def noteLineHeight : ℚ := 20

/-- `const maxLines = Math.floor(noteAreaHeight / lineHeight)`. -/
def noteMaxLines : Nat := (⌊noteAreaHeight / noteLineHeight⌋).toNat

theorem noteMaxLines_eq : noteMaxLines = 6 := by
  rw [noteMaxLines, noteAreaHeight, noteLineHeight, dcBottomSectionHeight,
    notePadding]
  norm_num
  rfl

/-- The final draw loop
`for (idx < Math.min(lines.length, maxLines)) fillText(lines[idx] || "", ..., noteStartY + idx * lineHeight)`,
as the list of `(y, text)` draw calls. -/
def noteDrawCalls (measure : String → ℚ) (areaW : ℚ) (maxL : Nat)
    (text : String) (startY : ℚ) : List (ℚ × String) :=
  let lines := wrapNote measure areaW maxL text
  (List.range (min lines.length maxL)).map
    (fun (idx : Nat) =>
      (startY + (idx : ℚ) * noteLineHeight, lines.getD idx ""))

/-! ### C7: properties of the note word-wrap -/

/-- Space-joined word list, the shape `currentLine` takes as the loop
appends `" " + word`. -/
def joinSp : List String → String
  | [] => ""
  | [w] => w
  | w :: rest => w ++ " " ++ joinSp rest

/-- A well-formed output line: empty, or a space-join of a nonempty
contiguous run of some paragraph's words which either fits the region
width or is a single (possibly overlong) word. -/
def GoodLine (measure : String → ℚ) (areaW : ℚ) (paras : List String)
    (l : String) : Prop :=
  l = "" ∨ ∃ p ∈ paras, ∃ chunk : List String, chunk ≠ []
      ∧ chunk.IsInfix (splitWords p)
      ∧ l = joinSp chunk
      ∧ (measure l ≤ areaW ∨ chunk.length = 1)

theorem splitWords_mem_ne_empty {w p : String} (h : w ∈ splitWords p) :
    w ≠ "" := by
  have h2 := (List.mem_filter.mp h).2
  intro he
  subst he
  simp [String.length] at h2

theorem append_space_ne_empty (s t : String) : s ++ " " ++ t ≠ "" := by
  intro h
  have h2 := congrArg String.data h
  simp at h2

theorem joinSp_append_single (chunk : List String) (hne : chunk ≠ [])
    (w : String) : joinSp (chunk ++ [w]) = joinSp chunk ++ " " ++ w := by
  induction chunk with
  | nil => cases hne rfl
  | cons a rest ih =>
      cases rest with
      | nil => rfl
      | cons b t =>
          have h2 := ih (by simp)
          simp only [List.cons_append, List.append_eq, joinSp] at h2 ⊢
          rw [h2]
          simp [String.append_assoc]

theorem wrapWords_length (measure : String → ℚ) (areaW : ℚ) (maxL : Nat) :
    ∀ (ws lines : List String) (cur : String), lines.length ≤ maxL →
      ((wrapWords measure areaW maxL lines ws cur).1).length ≤ maxL := by
  intro ws
  induction ws with
  | nil => intro lines cur h; simpa [wrapWords] using h
  | cons word rest ih =>
      intro lines cur h
      simp only [wrapWords]
      by_cases hlen : lines.length ≥ maxL
      · rw [if_pos hlen]
        simpa using h
      · rw [if_neg hlen]
        by_cases hcond : measure (testLineOf cur word) > areaW ∧ cur ≠ ""
        · rw [if_pos hcond]
          exact ih _ _ (by simp; omega)
        · rw [if_neg hcond]
          exact ih _ _ h

theorem wrapParagraph_length (measure : String → ℚ) (areaW : ℚ) (maxL : Nat)
    (lines : List String) (p : String) (h : lines.length ≤ maxL) :
    (wrapParagraph measure areaW maxL lines p).length ≤ maxL := by
  unfold wrapParagraph
  by_cases h1 : lines.length ≥ maxL
  · rw [if_pos h1]; exact h
  · rw [if_neg h1]
    by_cases h2 : (jsTrim p).length = 0
    · rw [if_pos h2]
      by_cases h3 : lines.length < maxL
      · rw [if_pos h3]; simp; omega
      · rw [if_neg h3]; exact h
    · rw [if_neg h2]
      simp only
      have hw := wrapWords_length measure areaW maxL (splitWords p) lines "" h
      by_cases h4 : (wrapWords measure areaW maxL lines (splitWords p) "").2
            ≠ "" ∧
          ((wrapWords measure areaW maxL lines (splitWords p) "").1).length
            < maxL
      · rw [if_pos h4]
        simp
        omega
      · rw [if_neg h4]
        exact hw

theorem wrapNote_length (measure : String → ℚ) (areaW : ℚ) (maxL : Nat)
    (text : String) : (wrapNote measure areaW maxL text).length ≤ maxL := by
  unfold wrapNote
  generalize jsSplit (fun c => c = '\n') text = ps
  have key : ∀ (qs : List String) (lines : List String),
      lines.length ≤ maxL →
      ((qs.foldl (wrapParagraph measure areaW maxL) lines)).length ≤ maxL := by
    intro qs
    induction qs with
    | nil => intro lines h; simpa using h
    | cons q rest ih =>
        intro lines h
        simpa using ih _ (wrapParagraph_length measure areaW maxL lines q h)
  exact key ps [] (by simp)

/-- Loop invariant for `currentLine` while wrapping one paragraph. -/
def CurInv (measure : String → ℚ) (areaW : ℚ) (p : String)
    (ws : List String) (cur : String) : Prop :=
  (cur = "" ∧ ∃ pre, splitWords p = pre ++ ws)
  ∨ (∃ chunk pre, chunk ≠ [] ∧ cur ≠ ""
      ∧ splitWords p = pre ++ chunk ++ ws
      ∧ cur = joinSp chunk
      ∧ (measure cur ≤ areaW ∨ chunk.length = 1))

theorem curInv_good (measure : String → ℚ) (areaW : ℚ)
    (paras : List String) (p : String) (hp : p ∈ paras) (ws : List String)
    (cur : String) (h : CurInv measure areaW p ws cur) :
    GoodLine measure areaW paras cur := by
  rcases h with ⟨hc, _⟩ | ⟨chunk, pre, hne, _, hsp, hj, hm⟩
  · exact Or.inl hc
  · exact Or.inr ⟨p, hp, chunk, hne, ⟨pre, ws, hsp.symm⟩, hj, hm⟩

theorem wrapWords_good (measure : String → ℚ) (areaW : ℚ) (maxL : Nat)
    (paras : List String) (p : String) (hp : p ∈ paras) :
    ∀ (ws lines : List String) (cur : String),
      (∀ l ∈ lines, GoodLine measure areaW paras l) →
      CurInv measure areaW p ws cur →
      (∀ l ∈ (wrapWords measure areaW maxL lines ws cur).1,
          GoodLine measure areaW paras l)
      ∧ GoodLine measure areaW paras
          (wrapWords measure areaW maxL lines ws cur).2 := by
  intro ws
  induction ws with
  | nil =>
      intro lines cur hlines hcur
      exact ⟨by simpa [wrapWords] using hlines,
        by simpa [wrapWords] using curInv_good measure areaW paras p hp [] cur hcur⟩
  | cons word rest ih =>
      intro lines cur hlines hcur
      have hwmem : word ∈ splitWords p := by
        rcases hcur with ⟨_, pre, hsp⟩ | ⟨chunk, pre, _, _, hsp, _, _⟩ <;>
          rw [hsp] <;> simp
      have hwne : word ≠ "" := splitWords_mem_ne_empty hwmem
      simp only [wrapWords]
      by_cases hlen : lines.length ≥ maxL
      · rw [if_pos hlen]
        exact ⟨hlines,
          curInv_good measure areaW paras p hp (word :: rest) cur hcur⟩
      · rw [if_neg hlen]
        by_cases hcond : measure (testLineOf cur word) > areaW ∧ cur ≠ ""
        · rw [if_pos hcond]
          rcases hcur with ⟨hc, _⟩ | ⟨chunk, pre, hne, hcne, hsp, hj, hm⟩
          · exact absurd hc hcond.2
          · apply ih
            · intro l hl
              rcases List.mem_append.mp hl with hl1 | hl2
              · exact hlines l hl1
              · have : l = cur := by simpa using hl2
                subst this
                exact Or.inr ⟨p, hp, chunk, hne,
                  ⟨pre, word :: rest, hsp.symm⟩, hj, hm⟩
            · exact Or.inr ⟨[word], pre ++ chunk, by simp, hwne,
                by rw [hsp]; simp, rfl, Or.inr rfl⟩
        · rw [if_neg hcond]
          apply ih _ _ hlines
          rcases hcur with ⟨hc, pre, hsp⟩ | ⟨chunk, pre, hne, hcne, hsp, hj, hm⟩
          · subst hc
            refine Or.inr ⟨[word], pre, by simp, ?_, by rw [hsp]; simp, ?_,
              Or.inr rfl⟩
            · simpa [testLineOf] using hwne
            · simp [testLineOf, joinSp]
          · have htl : testLineOf cur word = cur ++ " " ++ word := by
              simp [testLineOf, hcne]
            have hfits : measure (testLineOf cur word) ≤ areaW := by
              by_contra hgt
              exact hcond ⟨lt_of_not_le hgt, hcne⟩
            refine Or.inr ⟨chunk ++ [word], pre, by simp, ?_, ?_, ?_, Or.inl ?_⟩
            · rw [htl]
              exact append_space_ne_empty cur word
            · rw [hsp]
              simp
            · rw [htl, hj, joinSp_append_single chunk hne word]
            · exact hfits

theorem wrapParagraph_good (measure : String → ℚ) (areaW : ℚ) (maxL : Nat)
    (paras : List String) (p : String) (hp : p ∈ paras)
    (lines : List String)
    (hlines : ∀ l ∈ lines, GoodLine measure areaW paras l) :
    ∀ l ∈ wrapParagraph measure areaW maxL lines p,
      GoodLine measure areaW paras l := by
  unfold wrapParagraph
  by_cases h1 : lines.length ≥ maxL
  · rw [if_pos h1]; exact hlines
  · rw [if_neg h1]
    by_cases h2 : (jsTrim p).length = 0
    · rw [if_pos h2]
      by_cases h3 : lines.length < maxL
      · rw [if_pos h3]
        intro l hl
        rcases List.mem_append.mp hl with hl1 | hl2
        · exact hlines l hl1
        · exact Or.inl (by simpa using hl2)
      · rw [if_neg h3]; exact hlines
    · rw [if_neg h2]
      simp only
      have hg := wrapWords_good measure areaW maxL paras p hp (splitWords p)
        lines "" hlines (Or.inl ⟨rfl, [], by simp⟩)
      by_cases h4 : (wrapWords measure areaW maxL lines (splitWords p) "").2
            ≠ "" ∧
          ((wrapWords measure areaW maxL lines (splitWords p) "").1).length
            < maxL
      · rw [if_pos h4]
        intro l hl
        rcases List.mem_append.mp hl with hl1 | hl2
        · exact hg.1 l hl1
        · have : l = (wrapWords measure areaW maxL lines (splitWords p) "").2 := by
            simpa using hl2
          subst this
          exact hg.2
      · rw [if_neg h4]
        exact hg.1

theorem wrapNote_good (measure : String → ℚ) (areaW : ℚ) (maxL : Nat)
    (text : String) :
    ∀ l ∈ wrapNote measure areaW maxL text,
      GoodLine measure areaW (jsSplit (fun c => c = '\n') text) l := by
  unfold wrapNote
  have key : ∀ (qs lines : List String),
      (∀ q ∈ qs, q ∈ jsSplit (fun c => c = '\n') text) →
      (∀ l ∈ lines,
        GoodLine measure areaW (jsSplit (fun c => c = '\n') text) l) →
      ∀ l ∈ qs.foldl (wrapParagraph measure areaW maxL) lines,
        GoodLine measure areaW (jsSplit (fun c => c = '\n') text) l := by
    intro qs
    induction qs with
    | nil => intro lines _ hlines; simpa using hlines
    | cons q rest ih =>
        intro lines hqs hlines
        simp only [List.foldl]
        exact ih _ (fun x hx => hqs x (by simp [hx]))
          (wrapParagraph_good measure areaW maxL _ q (hqs q (by simp))
            lines hlines)
  exact key _ [] (fun q hq => hq) (by simp)

theorem noteDrawCalls_y_strict_mono (measure : String → ℚ) (areaW : ℚ)
    (maxL : Nat) (text : String) (startY : ℚ) :
    ((noteDrawCalls measure areaW maxL text startY).map Prod.fst).Pairwise
      (· < ·) := by
  unfold noteDrawCalls
  simp only [List.map_map]
  refine List.Pairwise.map _ ?_ (List.pairwise_lt_range _)
  intro a b hab
  simp only [Function.comp]
  have hc : (a : ℚ) < b := by exact_mod_cast hab
  have h20 : (0 : ℚ) < noteLineHeight := by norm_num [noteLineHeight]
  exact add_lt_add_left (mul_lt_mul_of_pos_right hc h20) startY

/-- C7 (amended): for every measuring oracle, region width, line
budget and note text, the wrap-and-draw pipeline (split on newlines,
greedy word wrap by measured width) produces at most `maxL` lines,
issues at most `maxL` draw calls at strictly increasing y-coordinates
(so no line is drawn twice), and every drawn line is either empty or
the space-join of a nonempty contiguous run of one paragraph's words —
wrapping only at word boundaries — that either fits the region width
or is a *single word*; a single word wider than the region is drawn
unbroken and exceeds the region width (see the counterexample), which
is the one exception to the claim's "no drawn line exceeds the region
width". -/
theorem noteWrap_amended (measure : String → ℚ) (areaW : ℚ) (maxL : Nat)
    (text : String) (startY : ℚ) :
    (wrapNote measure areaW maxL text).length ≤ maxL
    ∧ (noteDrawCalls measure areaW maxL text startY).length ≤ maxL
    ∧ ((noteDrawCalls measure areaW maxL text startY).map Prod.fst).Pairwise
        (· < ·)
    ∧ ∀ l ∈ wrapNote measure areaW maxL text,
        GoodLine measure areaW (jsSplit (fun c => c = '\n') text) l := by
  refine ⟨wrapNote_length measure areaW maxL text, ?_,
    noteDrawCalls_y_strict_mono measure areaW maxL text startY,
    wrapNote_good measure areaW maxL text⟩
  simp [noteDrawCalls]

/-- A single word of 48 characters; at 10 width units per character it
measures 480, wider than the 470.4-unit note area of the width-1280
canvas. -/
def longWord : String := "aaaaaaaaaaaaaaaaaaaaaaaaaaaaaaaaaaaaaaaaaaaaaaaa"

/-- C7 counterexample: with a measuring oracle of 10 width units per
character, the single 48-character word wraps to one line which is
drawn as-is — and its measured width 480 exceeds the note region
width `noteAreaWidth 1280 = 470.4`, refuting the claim's "no drawn
line exceeds the region width". -/
theorem note_overflow_counterexample :
    wrapNote (fun s => (s.length : ℚ) * 10) (noteAreaWidth 1280) noteMaxLines
        longWord = [longWord]
    ∧ ((longWord.length : ℚ) * 10 > noteAreaWidth 1280)
    ∧ noteDrawCalls (fun s => (s.length : ℚ) * 10) (noteAreaWidth 1280)
        noteMaxLines longWord (noteStartY 1280)
      = [(noteStartY 1280, longWord)] := by
  have hjs : jsSplit (fun c => c = '\n') longWord = [longWord] := by decide
  have hwords : splitWords longWord = [longWord] := by decide
  have htrim : ¬((jsTrim longWord).length = 0) := by decide
  have hlw : ¬(longWord = "") := by decide
  have h1 : wrapNote (fun s => (s.length : ℚ) * 10) (noteAreaWidth 1280)
      noteMaxLines longWord = [longWord] := by
    rw [wrapNote, hjs, noteMaxLines_eq]
    simp only [List.foldl]
    simp [wrapParagraph, htrim, hwords, wrapWords, testLineOf, hlw]
    rfl
  refine ⟨h1, ?_, ?_⟩
  · have hlen : longWord.length = 48 := by decide
    rw [hlen, noteAreaWidth, noteSectionWidth, notePadding, dcPadding]
    norm_num
  · simp only [noteDrawCalls]
    rw [h1, noteMaxLines_eq]
    simp [noteLineHeight, List.range_succ]

/-! ### C9: the full draw pass and (absent) width validation -/

/-- Slot background (`roundRect(x, y, slotWidth, slotsHeight, 4)`,
fill + stroke). -/
def drawSlotBgOps (w : ℚ) (i : Nat) : List CanvasOp :=
  [CanvasOp.roundRectFill (dcPadding + (i : ℚ) * (dcSlotWidth w + 16))
      dcPadding (dcSlotWidth w) (dcSlotsHeight w),
    CanvasOp.roundRectStroke (dcPadding + (i : ℚ) * (dcSlotWidth w + 16))
      dcPadding (dcSlotWidth w) (dcSlotsHeight w)]

/-- Equipment row background
(`roundRect(slotX, slotY, equipTotalWidth, equipSize + 12, 4)`). -/
def drawEquipRowBgOps (w : ℚ) (i : Nat) : List CanvasOp :=
  [CanvasOp.roundRectFill (dcSlotContentX w i)
      (dcPadding + dcSlotPadding + dcCharImageHeight w + 12 +
        dcCardImageHeight w + 12)
      (dcSlotWidth w - dcSlotPadding * 2) (dcEquipSize + 12)]

/-- All operations for character slot `i`. -/
def drawCharSlotOps (w : ℚ) (i : Nat) (slot : CharSlot)
    (ready : String → Bool) : List CanvasOp :=
  drawSlotBgOps w i
  ++ drawCharRegionOps w i slot.char ready
  ++ drawCardRegionOps w i slot.card ready
  ++ drawEquipRowBgOps w i
  ++ (List.range 4).flatMap
      (fun j => drawEquipCellOps w i j (equipKindAt slot.equips j) ready)

/-- Pet-formation region background. -/
def drawPetSectionBgOps (w : ℚ) : List CanvasOp :=
  [CanvasOp.roundRectFill dcPadding (bottomSectionY w) (petSectionWidth w)
      dcBottomSectionHeight,
    CanvasOp.roundRectStroke dcPadding (bottomSectionY w) (petSectionWidth w)
      dcBottomSectionHeight]

/-- Note region background, title and text-area clear. -/
def drawNoteBgOps (w : ℚ) : List CanvasOp :=
  [CanvasOp.roundRectFill (noteX w) (bottomSectionY w) (noteSectionWidth w)
      dcBottomSectionHeight,
    CanvasOp.roundRectStroke (noteX w) (bottomSectionY w) (noteSectionWidth w)
      dcBottomSectionHeight,
    CanvasOp.fillText "노트" (noteX w + noteSectionWidth w / 2)
      (bottomSectionY w + 20),
    CanvasOp.fillRect (noteX w + notePadding) (noteStartY w) (noteAreaWidth w)
      noteAreaHeight]

/-- The gated note text drawing
(`if (noteText && noteText.trim()) { ... }`). -/
def drawNoteTextOps (w : ℚ) (measure : String → ℚ) (text : String) :
    List CanvasOp :=
  if text ≠ "" ∧ jsTrim text ≠ "" then
    (noteDrawCalls measure (noteAreaWidth w) noteMaxLines text
        (noteStartY w)).map
      (fun c => CanvasOp.fillText c.2 (noteX w + notePadding) c.1)
  else []

/-- The complete `drawCanvas` operation list: background fill, the
five character slots, the pet-formation region, and the note region.
There is *no* validation of `width` anywhere — the function
unconditionally draws, whatever the width. -/
def drawCanvasOps (w : ℚ) (charSlots : List CharSlot)
    (petFormationSlots : List (Option LibraryItem)) (noteText : String)
    (ready : String → Bool) (measure : String → ℚ) : List CanvasOp :=
  [CanvasOp.fillRect 0 0 w (dcCalculatedHeight w)]
  ++ (List.range 5).flatMap
      (fun i => drawCharSlotOps w i (charSlots.getD i emptyCharSlot) ready)
  ++ drawPetSectionBgOps w
  ++ (List.range 3).flatMap
      (fun i => drawPetBoxOps w i (petFormationSlots.getD i none) ready
        measure)
  ++ drawNoteBgOps w
  ++ drawNoteTextOps w measure noteText

/-- C9 counterexample: invoked at canvas width 0 (a non-positive
width), the layout/draw computation raises no invalid-input signal —
it proceeds, computing a negative cell width and unconditionally
emitting draw operations, starting with the full-canvas background
fill. -/
theorem zero_width_draw_proceeds_counterexample :
    dcSlotWidth 0 < 0
    ∧ (drawCanvasOps 0 [] [] "" (fun _ => false) (fun _ => 0)).head?
        = some (CanvasOp.fillRect 0 0 0 (dcCalculatedHeight 0))
    ∧ drawCanvasOps 0 [] [] "" (fun _ => false) (fun _ => 0) ≠ [] := by
  refine ⟨?_, ?_, ?_⟩
  · rw [dcSlotWidth, dcPadding]
    norm_num
  · simp [drawCanvasOps]
  · simp [drawCanvasOps]

/-- C9 (amended): the draw computation performs no width validation:
for *every* non-positive canvas width it proceeds rather than failing
fast — the computed cell width is negative and the operation list is
emitted unconditionally, beginning with the background fill; the
embedding is a total function with no error channel, mirroring the
absence of any failure path in `drawCanvas`. -/
theorem drawCanvas_no_width_validation (w : ℚ) (hw : w ≤ 0)
    (charSlots : List CharSlot)
    (petFormationSlots : List (Option LibraryItem)) (noteText : String)
    (ready : String → Bool) (measure : String → ℚ) :
    dcSlotWidth w < 0
    ∧ (drawCanvasOps w charSlots petFormationSlots noteText ready
          measure).head?
        = some (CanvasOp.fillRect 0 0 w (dcCalculatedHeight w)) := by
  constructor
  · rw [dcSlotWidth, dcPadding]
    linarith
  · simp [drawCanvasOps]

/-- Witness for `drawCanvas_no_width_validation` at width `-4`. -/
theorem drawCanvas_no_width_validation_witness :
    dcSlotWidth (-4) < 0
    ∧ (drawCanvasOps (-4) [] [] "note" (fun _ => true) (fun _ => 7)).head?
        = some (CanvasOp.fillRect 0 0 (-4) (dcCalculatedHeight (-4))) :=
  drawCanvas_no_width_validation (-4) (by norm_num) [] [] "note"
    (fun _ => true) (fun _ => 7)

/-! ### C10: the image cache (`loadImage`, lines 1052-1072) -/

/-- An `HTMLImageElement` handle: its identity and `complete` flag. -/
structure ImgHandle where
  hid : Nat
  complete : Bool
deriving DecidableEq, Repr

/-- The module-level `imageCache : Map<string, HTMLImageElement>`
together with a supply of fresh image identities; `new Image()`
allocates the next identity. -/
structure CacheState where
  entries : List (String × ImgHandle)
  nextId : Nat
deriving DecidableEq, Repr

/-- `imageCache.get(src)` (with `has` = `isSome`). -/
def cacheGet (st : CacheState) (src : String) : Option ImgHandle :=
  (st.entries.find? (fun e => e.1 == src)).map Prod.snd

/-- The result of one `loadImage(src)` call: either an immediately
resolved promise carrying the cached handle, or a newly started
underlying load operation (a fresh `new Image()` whose `src` was just
assigned). -/
inductive LoadResult where
  | resolvedCached (h : ImgHandle)
  | startedNew (hid : Nat)
deriving DecidableEq, Repr

/-- `loadImage` from `page.tsx` lines 1055-1072: return the cached
handle only when present *and* `complete`; otherwise start a new load
(the cache is *not* updated until the `onload` handler fires). -/
def loadImage (st : CacheState) (src : String) : LoadResult × CacheState :=
  match cacheGet st src with
  | some cached =>
      if cached.complete then (LoadResult.resolvedCached cached, st)
      else (LoadResult.startedNew st.nextId,
        { st with nextId := st.nextId + 1 })
  | none =>
      (LoadResult.startedNew st.nextId, { st with nextId := st.nextId + 1 })

/-- The `img.onload` handler of the operation `hid`:
`imageCache.set(src, img)` with the now-complete image.  (`onerror`
records nothing.) -/
def completeLoad (st : CacheState) (src : String) (hid : Nat) : CacheState :=
  { st with entries := (src, ⟨hid, true⟩) :: st.entries }

/-- The cache at session start. -/
def emptyCache : CacheState := ⟨[], 0⟩

/-- C10 counterexample: two `loadImage` calls for the same `src`
issued before the first completes start two *distinct* underlying
operations (fresh images 0 and 1) — there is no coalescing of
in-flight loads, refuting "at most one underlying load operation is
ever started" and "a second request … returns the same in-flight
operation". -/
theorem loadImage_duplicate_counterexample :
    (loadImage emptyCache "img/a.png").1 = LoadResult.startedNew 0
    ∧ (loadImage (loadImage emptyCache "img/a.png").2 "img/a.png").1
        = LoadResult.startedNew 1 := by
  decide

/-- C10 (amended): for a `src` with no completed load in the cache,
*every* request starts a fresh underlying operation (two back-to-back
requests start operations with distinct identities); only after a
successful load completes is the handle memoized, after which every
request resolves immediately from the cache and leaves the state
unchanged. -/
theorem loadImage_amended (st : CacheState) (src : String)
    (hmiss : ∀ h, cacheGet st src = some h → h.complete = false) :
    (loadImage st src).1 = LoadResult.startedNew st.nextId
    ∧ (loadImage (loadImage st src).2 src).1
        = LoadResult.startedNew (st.nextId + 1)
    ∧ ∀ hid,
        (loadImage (completeLoad st src hid) src).1
          = LoadResult.resolvedCached ⟨hid, true⟩
        ∧ (loadImage (completeLoad st src hid) src).2
          = completeLoad st src hid := by
  have hstart : ∀ n,
      (loadImage { entries := st.entries, nextId := n } src).1
          = LoadResult.startedNew n
      ∧ (loadImage { entries := st.entries, nextId := n } src).2
          = { entries := st.entries, nextId := n + 1 } := by
    intro n
    have hg : cacheGet { entries := st.entries, nextId := n } src
        = cacheGet st src := rfl
    cases hc : cacheGet st src with
    | none => constructor <;> simp [loadImage, hg, hc]
    | some cached =>
        constructor <;> simp [loadImage, hg, hc, hmiss cached hc]
  refine ⟨(hstart st.nextId).1, ?_, ?_⟩
  · rw [show (loadImage st src).2
        = { entries := st.entries, nextId := st.nextId + 1 } from
      (hstart st.nextId).2]
    exact (hstart (st.nextId + 1)).1
  · intro hid
    have hget : cacheGet (completeLoad st src hid) src
        = some ⟨hid, true⟩ := by
      simp [cacheGet, completeLoad]
    constructor <;> simp [loadImage, hget]

/-- Witness for `loadImage_amended` on the empty session cache. -/
theorem loadImage_amended_witness :
    (loadImage emptyCache "img/b.png").1 = LoadResult.startedNew 0
    ∧ (loadImage (loadImage emptyCache "img/b.png").2 "img/b.png").1
        = LoadResult.startedNew 1
    ∧ ∀ hid,
        (loadImage (completeLoad emptyCache "img/b.png" hid) "img/b.png").1
          = LoadResult.resolvedCached ⟨hid, true⟩
        ∧ (loadImage (completeLoad emptyCache "img/b.png" hid) "img/b.png").2
          = completeLoad emptyCache "img/b.png" hid :=
  loadImage_amended emptyCache "img/b.png"
    (fun h hh => by simp [cacheGet, emptyCache] at hh)

end LostSword
